import Mathlib

/-!
Verification of the rosidl_pycommon module (rosidl_pycommon/__init__.py).

This file gives a shallow embedding, in Lean 4, of the functions of that
module, and proves or refutes the frozen claims about them.

Modelling conventions:
- Python strings are Lean String values; character classes such as [A-Z]
  are modelled by their code point ranges, and str.lower is modelled on
  the ASCII range (the only range the regular expressions of the source
  inspect).
- The filesystem is an explicit value: an association list from path to
  file (content and modification time) plus a list of directories.
  Modification times are natural numbers; only their order matters.
- Timestamps taken by a write are an explicit argument (the current
  clock value).
- The em template engine, the IDL parser and the json decoder are
  external collaborators (out of scope per the spec); their outcomes are
  parameters of the embedded functions: a render outcome is a value of
  type Except String String, a parser outcome Except PyExc IdlContent,
  and so on. Control flow around those outcomes is translated from the
  source.
- Output to stderr is modelled as a list of structured LogEntry values.
-/

/-! ## Character classes used by the regular expressions of the source -/

/-- The character class [A-Z] of the two regular expressions. -/
def isUpperChar (c : Char) : Bool := 65 ≤ c.toNat && c.toNat ≤ 90

/-- The character class [a-z]. -/
def isLowerChar (c : Char) : Bool := 97 ≤ c.toNat && c.toNat ≤ 122

/-- The character class [0-9]. -/
def isDigitChar (c : Char) : Bool := 48 ≤ c.toNat && c.toNat ≤ 57

/-- Python str.lower on one character, modelled on the ASCII range:
uppercase A-Z is shifted by 32, every other character is unchanged. -/
def lowerChar (c : Char) : Char :=
  if 65 ≤ c.toNat ∧ c.toNat ≤ 90 then Char.ofNat (c.toNat + 32) else c

/-!
## convert_camel_case_to_lower_case_underscore (source lines 45-52)

The first re.sub call has pattern (.)([A-Z][a-z]+) and replacement
\x5c1_\x5c2: scanning left to right without overlap, any character other
than a newline (the dot does not match a newline), followed by an
uppercase letter, followed by a greedy non-empty run of lowercase
letters, is rewritten with an underscore after the first character, and
scanning resumes after the lowercase run.  The second re.sub call has
pattern ([a-z0-9])([A-Z]): a lowercase letter or digit directly followed
by an uppercase letter receives an underscore between them.  Finally the
whole string is lowercased.
-/

theorem length_dropWhile_le {α : Type} (p : α → Bool) (l : List α) :
    (l.dropWhile p).length ≤ l.length :=
  (List.dropWhile_sublist p).length_le

/-- First substitution: re.sub of (.)([A-Z][a-z]+) inserting an
underscore between the two groups. -/
def re_sub1 : List Char → List Char
  | [] => []
  | [c] => [c]
  | c :: u :: rest =>
    if c != '\n' && isUpperChar u && !(rest.takeWhile isLowerChar).isEmpty then
      c :: '_' :: u :: (rest.takeWhile isLowerChar ++ re_sub1 (rest.dropWhile isLowerChar))
    else
      c :: re_sub1 (u :: rest)
termination_by s => s.length
decreasing_by
  · have := length_dropWhile_le isLowerChar rest
    simp
    omega
  · simp

/-- Second substitution: re.sub of ([a-z0-9])([A-Z]) inserting an
underscore between the two groups. -/
def re_sub2 : List Char → List Char
  | [] => []
  | [c] => [c]
  | c :: u :: rest =>
    if (isLowerChar c || isDigitChar c) && isUpperChar u then
      c :: '_' :: u :: re_sub2 rest
    else
      c :: re_sub2 (u :: rest)

/-- Source lines 45-52: the naming normalizer. -/
def convert_camel_case_to_lower_case_underscore (value : String) : String :=
  String.mk ((re_sub2 (re_sub1 value.data)).map lowerChar)

/-! ## Filesystem model -/

/-- A regular file: its content and its modification time. -/
structure FSFile where
  content : String
  mtime : Nat
deriving DecidableEq, Repr

/-- The filesystem: regular files keyed by path, and the set of
directories, as association data with decidable equality. -/
structure FileSystem where
  files : List (String × FSFile)
  dirs : List String
deriving DecidableEq, Repr

/-- Association list lookup (first binding wins). -/
def lookupFile : List (String × FSFile) → String → Option FSFile
  | [], _ => none
  | (q, f) :: rest, p => if q = p then some f else lookupFile rest p

/-- Lookup of a path among the regular files. -/
def FileSystem.get (fs : FileSystem) (p : String) : Option FSFile :=
  lookupFile fs.files p

/-- os.path.exists for a regular file (template and output files in this
development are regular files). -/
def FileSystem.existsFile (fs : FileSystem) (p : String) : Bool :=
  (fs.get p).isSome

/-- Writing a file: replaces any binding of the path and records the
given clock value as the new modification time. -/
def FileSystem.write (fs : FileSystem) (p : String) (c : String) (now : Nat) : FileSystem :=
  { fs with files := (p, ⟨c, now⟩) :: fs.files.filter (fun e => e.1 ≠ p) }

/-- os.remove guarded by os.path.exists: drops the binding of the path
if present. -/
def FileSystem.remove (fs : FileSystem) (p : String) : FileSystem :=
  { fs with files := fs.files.filter (fun e => e.1 ≠ p) }

/-- os.makedirs with FileExistsError swallowed: records the directory
(an already existing directory leaves the filesystem unchanged). -/
def FileSystem.mkdirs (fs : FileSystem) (d : String) : FileSystem :=
  if d ∈ fs.dirs then fs else { fs with dirs := d :: fs.dirs }

/-! ## Path helpers (os.path / pathlib on strings with separator /) -/

/-- Joining a directory and a name, as the / operator of pathlib. -/
def pathJoin (a b : String) : String := a ++ "/" ++ b

/-- Splitting a character list at every occurrence of a separator
character; there is always at least one group. -/
def splitOnChar (sep : Char) : List Char → List (List Char)
  | [] => [[]]
  | c :: rest =>
    if c = sep then [] :: splitOnChar sep rest
    else
      match splitOnChar sep rest with
      | [] => [[c]]
      | g :: gs => (c :: g) :: gs

/-- Python str.split with a one character separator. -/
def splitOnStr (p : String) (sep : Char) : List String :=
  (splitOnChar sep p.data).map String.mk

/-- os.path.dirname: everything before the last separator, empty when
there is none. -/
def dirnameOf (p : String) : String :=
  String.intercalate "/" ((splitOnStr p '/').dropLast)

/-- os.path.basename / pathlib name: everything after the last
separator. -/
def basenameOf (p : String) : String :=
  ((splitOnStr p '/').getLastD p)

/-- pathlib stem: the basename with its final extension removed; a name
whose only dot is leading keeps it. -/
def stemOf (p : String) : String :=
  let nm := basenameOf p
  let parts := splitOnStr nm '.'
  if parts.length ≤ 1 then nm
  else if String.intercalate "." parts.dropLast = "" then nm
  else String.intercalate "." parts.dropLast

/-- pathlib suffix with its leading dot removed, as used at source line
95 by the expression p.suffix[1:]. -/
def suffixTailOf (p : String) : String :=
  let nm := basenameOf p
  let parts := splitOnStr nm '.'
  if parts.length ≤ 1 then ""
  else if String.intercalate "." parts.dropLast = "" then ""
  else parts.getLastD ""

/-- str(pathlib parent) of a relative path: the directory part, or a dot
when the path is a bare name. -/
def parentOf (p : String) : String :=
  if (splitOnStr p '/').length ≤ 1 then "." else dirnameOf p

/-- Python str.split with separator colon and maxsplit 1: a pair around
the first colon, or failure of the arity assertion when no colon
occurs. -/
def splitColon1 (s : String) : Option (String × String) :=
  match splitOnStr s ':' with
  | [] => none
  | [_] => none
  | a :: rest => some (a, String.intercalate ":" rest)

/-- Python str.rsplit with separator colon and maxsplit 1: a pair
around the last colon, or failure of the arity assertion when no colon
occurs. -/
def rsplitColon1 (s : String) : Option (String × String) :=
  match splitOnStr s ':' with
  | [] => none
  | [_] => none
  | parts => some (String.intercalate ":" parts.dropLast, parts.getLastD "")

/-- Generic association list lookup, first binding wins. -/
def alookup {κ β : Type} [DecidableEq κ] : List (κ × β) → κ → Option β
  | [], _ => none
  | (q, v) :: rest, k => if q = k then some v else alookup rest k

/-! ## Python exceptions and stderr diagnostics -/

/-- The exception kinds the module can raise or propagate. -/
inductive PyExc where
  | assertionFailed (msg : String)
  | keyError (key : String)
  | osError (path : String)
  | indexError
  | parseError (msg : String)
  | renderError (msg : String)
  | jsonError (msg : String)
deriving DecidableEq, Repr

/-- The three print statements to stderr of the module, as structured
values: source lines 214-215, line 266 and lines 137-139. -/
inductive LogEntry where
  | expandErrorLog (templateName outputFile msg : String)
  | includeErrorLog (templatePath msg : String)
  | idlErrorLog (absolutePath : String)
deriving DecidableEq, Repr

/-! ## get_newest_modification_time (source lines 60-68) -/

/-- Source lines 66-67: the accumulator update of the loop, replacing
the running value exactly when it is still None or the new timestamp is
strictly greater. -/
def stepAcc (acc : Option Nat) (ts : Nat) : Option Nat :=
  match acc with
  | none => some ts
  | some m => if ts > m then some ts else some m

/-- The loop of get_newest_modification_time: os.path.getmtime raises an
OSError when the dependency does not exist, otherwise the running
maximum is updated by stepAcc. -/
def newest_loop (fs : FileSystem) : List String → Option Nat → Except PyExc (Option Nat)
  | [], acc => .ok acc
  | d :: ds, acc =>
    match fs.get d with
    | none => .error (.osError d)
    | some f => newest_loop fs ds (stepAcc acc f.mtime)

/-- Source lines 60-68. -/
def get_newest_modification_time (fs : FileSystem)
    (target_dependencies : List String) : Except PyExc (Option Nat) :=
  newest_loop fs target_dependencies none

/-! ## Template search path (source lines 145-154) -/

/-- Pushing a base directory: the source appends at the end of the
module level list template_prefix_path (source line 173). -/
def push_template_basepath (stack : List String) (b : String) : List String :=
  stack ++ [b]

/-- Source lines 148-154: the for loop iterates the list from index
zero, that is from the earliest pushed entry, and returns the first base
directory whose joined path exists; when no entry matches, a
RuntimeError is raised. -/
def get_template_path (fs : FileSystem) : List String → String → Except String String
  | [], name => .error ("Failed to find template " ++ name)
  | b :: rest, name =>
    if fs.existsFile (pathJoin b name) then .ok (pathJoin b name)
    else get_template_path fs rest name

/-! ## expand_template (source lines 160-242) -/

/-- State threaded through expand_template: the filesystem and the
module level search path list. -/
structure GlobalState where
  fs : FileSystem
  template_prefix_path : List String
deriving DecidableEq, Repr

/-- The exceptions expand_template itself can surface. -/
inductive ExpandErr where
  | templateNotFound (name : String)
  | renderError (msg : String)
deriving DecidableEq, Repr

/-- The outcome of one expand_template call. -/
structure ExpandResult where
  state : GlobalState
  log : List LogEntry
  err : Option ExpandErr
deriving DecidableEq, Repr

/-- Applying the optional post_process_callback (source lines
223-224). -/
def applyPost (post : Option (String → String)) (s : String) : String :=
  match post with
  | none => s
  | some f => f s

/-- Source lines 226-242: the conditional write.  When the output file
exists, its timestamp is fetched; when the minimum timestamp is absent
or the timestamp is strictly greater, the existing content is compared
and an equal content returns without touching the filesystem.  In every
other case the content is written, after creating the parent directory
when the output file did not exist (an already existing directory is
tolerated). -/
def write_output (fs : FileSystem) (output_file : String) (content : String)
    (minimum_timestamp : Option Nat) (now : Nat) : FileSystem :=
  match fs.get output_file with
  | some f =>
    if (match minimum_timestamp with
        | none => true
        | some m => decide (f.mtime > m)) && (f.content == content) then
      fs
    else
      fs.write output_file content now
  | none =>
    (fs.mkdirs (dirnameOf output_file)).write output_file content now

/-- Source lines 160-242.  The em engine is external: its outcome for
this template and context is the render argument.  The steps, in source
order: the legacy split of the first argument when no base path is
given (lines 167-170); the push onto template_prefix_path (line 173);
the resolution via get_template_path (line 174), whose RuntimeError
propagates before the try block is entered, so the pushed entry is not
popped on that path; engine construction (in scope of the em library);
the try block around rendering, whose except branch removes an existing
output file, prints a diagnostic and re-raises, and whose finally
branch pops the search path; and finally the post processing and the
conditional write. -/
def expand_template (st : GlobalState) (template_name : String) (output_file : String)
    (minimum_timestamp : Option Nat) (template_basepath : Option String)
    (post_process_callback : Option (String → String))
    (render : Except String String) (now : Nat) : ExpandResult :=
  let basepath := match template_basepath with
    | none => dirnameOf template_name
    | some b => b
  let name := match template_basepath with
    | none => basenameOf template_name
    | some _ => template_name
  let stack1 := push_template_basepath st.template_prefix_path basepath
  match get_template_path st.fs stack1 name with
  | .error _ =>
      { state := { fs := st.fs, template_prefix_path := stack1 },
        log := [], err := some (.templateNotFound name) }
  | .ok _template_path =>
      match render with
      | .error msg =>
          { state := { fs := st.fs.remove output_file,
                       template_prefix_path := stack1.dropLast },
            log := [.expandErrorLog name output_file msg],
            err := some (.renderError msg) }
      | .ok rendered =>
          let content := applyPost post_process_callback rendered
          { state := { fs := write_output st.fs output_file content minimum_timestamp now,
                       template_prefix_path := stack1.dropLast },
            log := [], err := none }

/-! ## The nested inclusion callable (source lines 245-269) -/

/-- State visible to the nested inclusion callable: the filesystem, the
search path list and the output sink of the module level interpreter. -/
structure IncludeState where
  fs : FileSystem
  template_prefix_path : List String
  sink : String
deriving DecidableEq, Repr

/-- The outcome of one nested inclusion. -/
structure IncludeResult where
  state : IncludeState
  log : List LogEntry
  err : Option ExpandErr
deriving DecidableEq, Repr

/-- Source lines 249-269, the function bound to the TEMPLATE entry of
the render context.  It resolves the requested name with
get_template_path against the search path as it currently stands; the
body of the function contains no append to and no pop from
template_prefix_path.  The engine outcome is a function of the search
path the nested render observes; on success the rendered text is
appended to the interpreter output sink, on failure a diagnostic naming
the resolved template path is printed and the error re-raised. -/
def nested_expand_template (st : IncludeState) (template_name : String)
    (render : List String → Except String String) : IncludeResult :=
  match get_template_path st.fs st.template_prefix_path template_name with
  | .error _ =>
      { state := st, log := [], err := some (.templateNotFound template_name) }
  | .ok template_path =>
      match render st.template_prefix_path with
      | .error msg =>
          { state := st, log := [.includeErrorLog template_path msg],
            err := some (.renderError msg) }
      | .ok s =>
          { state := { st with sink := st.sink ++ s }, log := [], err := none }

/-! ## The render context clone (source lines 197-199 and 245-246) -/

/-- Values stored in a render context dictionary. -/
inductive PyValue where
  | strV (s : String)
  | templateCallable
  | opaqueV (n : Nat)
deriving DecidableEq, Repr

/-- Python dictionary assignment: the new binding replaces any previous
binding of the key. -/
def dictSet (d : List (String × PyValue)) (k : String) (v : PyValue) :
    List (String × PyValue) :=
  (k, v) :: d.filter (fun e => e.1 ≠ k)

/-- Source lines 245-246: _add_helper_functions binds the TEMPLATE key
to the nested inclusion callable. -/
def add_helper_functions (d : List (String × PyValue)) : List (String × PyValue) :=
  dictSet d "TEMPLATE" .templateCallable

/-- A heap of Python dictionaries addressed by identity, to express
mutation versus copying. -/
structure DictHeap where
  dicts : List (Nat × List (String × PyValue))
deriving DecidableEq, Repr

/-- Source lines 197-199: data = dict(data) binds a fresh identity to a
copy of the bindings of the caller dictionary, and _add_helper_functions
then mutates only that fresh dictionary. -/
def prepare_render_context (h : DictHeap) (caller : Nat) (fresh : Nat) : DictHeap :=
  match alookup h.dicts caller with
  | none => h
  | some content => { dicts := (fresh, add_helper_functions content) :: h.dicts }

/-! ## generate_files (source lines 71-142) -/

/-- The generator arguments manifest, after json decoding (section 4.2
of the spec; the json reading itself is the external json library). -/
structure GenArgs where
  template_dir : String
  output_dir : String
  package_name : String
  target_dependencies : List String
  idl_tuples : List String
  ros_interface_files : List String
  type_description_tuples : List String
deriving DecidableEq, Repr

/-- Source lines 86-90: the type_description_tuples loop, splitting each
entry at the first colon; a missing colon fails the arity assertion.
Later entries overwrite earlier bindings of the same key. -/
def build_tdf_loop (acc : List (String × String)) :
    List String → Except PyExc (List (String × String))
  | [] => .ok acc
  | t :: ts =>
    match splitColon1 t with
    | none => .error (.assertionFailed "type_description_tuples")
    | some (a, b) => build_tdf_loop ((a, b) :: acc.filter (fun e => e.1 ≠ a)) ts

/-- Source lines 91-96: the ros_interface_files loop, keying each path
by its extension without the dot and its stem. -/
def build_rif_loop (acc : List ((String × String) × String)) :
    List String → List ((String × String) × String)
  | [] => acc
  | p :: ps =>
    build_rif_loop
      (((suffixTailOf p, stemOf p), p) ::
        acc.filter (fun e => e.1 ≠ (suffixTailOf p, stemOf p))) ps

/-- Source lines 117-135: the per template loop.  The expand_call
argument stands for the call to expand_template with the manifest
derived arguments; its optional result is the exception that call
raises.  The generated path is appended to the result list before the
expansion (line 121). -/
def expand_loop (output_dir rel idl_stem absPath : String)
    (expand_call : String → String → Option PyExc) :
    List (String × String) → List String → List LogEntry × Except PyExc (List String)
  | [], acc => ([], .ok acc.reverse)
  | (template_file, generated_filename) :: ms, acc =>
    let generated_file :=
      pathJoin output_dir
        (pathJoin (parentOf rel) (String.replace generated_filename "%s" idl_stem))
    match expand_call template_file generated_file with
    | some e => ([.idlErrorLog absPath], .error e)
    | none => expand_loop output_dir rel idl_stem absPath expand_call ms (generated_file :: acc)

/-- Source lines 104-108: the side file step.  When the side file map is
non empty the entry for the relative idl path is fetched (a missing key
raises a KeyError), the named side file is opened (a missing file raises
an OSError) and decoded by the external json library. -/
def side_file_step (fs : FileSystem) (type_description_files : List (String × String))
    (json_load : String → Except PyExc String) (rel : String) :
    Except PyExc (Option String) :=
  if type_description_files.isEmpty then .ok none
  else
    match alookup type_description_files rel with
    | none => .error (.keyError rel)
    | some hfile =>
      match fs.get hfile with
      | none => .error (.osError hfile)
      | some f => (json_load f.content).map some

/-- Source lines 98-140: processing of one idl_tuples entry.  The tuple
is rsplit at its last colon (lines 99-100); the side file step (lines
104-108) runs before the try block, so its exceptions propagate without
the idl diagnostic; the component at index minus two of the relative
path (line 111) also precedes the try block; the parse of the idl file
(line 116) and the template loop run inside the try block, whose except
branch prints the absolute path of the offending idl file and
re-raises. -/
def process_idl_tuple (fs : FileSystem) (output_dir : String)
    (type_description_files : List (String × String))
    (ros_interface_files : List ((String × String) × String))
    (keep_case : Bool) (mapping : List (String × String))
    (parse : String → String → Except PyExc String)
    (json_load : String → Except PyExc String)
    (expand_call : String → String → Option PyExc)
    (idl_tuple : String) : List LogEntry × Except PyExc (List String) :=
  match rsplitColon1 idl_tuple with
  | none => ([], .error (.assertionFailed "idl_tuple"))
  | some (base, rel) =>
    let absPath := pathJoin base rel
    match side_file_step fs type_description_files json_load rel with
    | .error e => ([], .error e)
    | .ok _info =>
      let parts := splitOnStr rel '/'
      if parts.length < 2 then ([], .error .indexError)
      else
        let stem0 := stemOf rel
        let src_key := (parts.getD (parts.length - 2) "", stem0)
        let _type_source_file := (alookup ros_interface_files src_key).getD absPath
        let idl_stem :=
          if keep_case then stem0
          else convert_camel_case_to_lower_case_underscore stem0
        match parse base rel with
        | .error e => ([.idlErrorLog absPath], .error e)
        | .ok _content =>
          expand_loop output_dir rel idl_stem absPath expand_call mapping []

/-- The for loop of source line 98: entries are processed in order and
the first exception aborts the run. -/
def process_idl_tuples (fs : FileSystem) (output_dir : String)
    (type_description_files : List (String × String))
    (ros_interface_files : List ((String × String) × String))
    (keep_case : Bool) (mapping : List (String × String))
    (parse : String → String → Except PyExc String)
    (json_load : String → Except PyExc String)
    (expand_call : String → String → Option PyExc) :
    List String → List LogEntry × Except PyExc (List String)
  | [] => ([], .ok [])
  | t :: ts =>
    match process_idl_tuple fs output_dir type_description_files ros_interface_files
        keep_case mapping parse json_load expand_call t with
    | (log, .error e) => (log, .error e)
    | (_, .ok gens) =>
      match process_idl_tuples fs output_dir type_description_files ros_interface_files
          keep_case mapping parse json_load expand_call ts with
      | (log2, .error e) => (log2, .error e)
      | (log2, .ok rest) => (log2, .ok (gens ++ rest))

/-- Source lines 71-142.  In source order: the template mapping keys are
validated against template_dir (lines 78-81, the assert names the first
missing template); the staleness cutoff is computed (line 83, an OSError
propagates); the side file and interface maps are built (lines 86-96);
the idl tuples are processed.  The expand_call argument receives the
computed cutoff exactly as expand_template receives minimum_timestamp at
line 133. -/
def generate_files (fs : FileSystem) (args : GenArgs)
    (mapping : List (String × String)) (keep_case : Bool)
    (parse : String → String → Except PyExc String)
    (json_load : String → Except PyExc String)
    (expand_call : Option Nat → String → String → Option PyExc) :
    List LogEntry × Except PyExc (List String) :=
  match mapping.find? (fun tm => !(fs.existsFile (pathJoin args.template_dir tm.1))) with
  | some tm => ([], .error (.assertionFailed ("Could not find template: " ++ tm.1)))
  | none =>
    match get_newest_modification_time fs args.target_dependencies with
    | .error e => ([], .error e)
    | .ok latest =>
      match build_tdf_loop [] args.type_description_tuples with
      | .error e => ([], .error e)
      | .ok tdf =>
        let rif := build_rif_loop [] args.ros_interface_files
        process_idl_tuples fs args.output_dir tdf rif keep_case mapping
          parse json_load (expand_call latest) args.idl_tuples

/-! ## Lemmas about the naming normalizer -/

theorem toNat_ofNat_valid (n : Nat) (h : Nat.isValidChar n) : (Char.ofNat n).toNat = n := by
  simp [Char.ofNat, h, Char.toNat, Char.ofNatAux, UInt32.toNat, UInt32.ofNatCore]

theorem isUpperChar_lowerChar (c : Char) : isUpperChar (lowerChar c) = false := by
  unfold lowerChar
  split
  · rename_i h
    have hv : Nat.isValidChar (c.toNat + 32) := Or.inl (by omega)
    simp [isUpperChar, toNat_ofNat_valid _ hv]
    omega
  · rename_i h
    simp [isUpperChar]
    omega

theorem re_sub1_no_upper (l : List Char) (h : ∀ c ∈ l, isUpperChar c = false) :
    re_sub1 l = l := by
  induction l using re_sub1.induct with
  | case1 => simp [re_sub1]
  | case2 c => simp [re_sub1]
  | case3 c u rest hcond =>
    exfalso
    have hu : isUpperChar u = false := h u (by simp)
    simp [hu] at hcond
  | case4 c u rest hcond ih =>
    rw [re_sub1]
    simp only [hcond, Bool.false_eq_true, not_false_iff, ite_false]
    congr 1
    exact ih (by intro x hx; exact h x (List.mem_cons_of_mem c hx))

theorem re_sub2_no_upper (l : List Char) (h : ∀ c ∈ l, isUpperChar c = false) :
    re_sub2 l = l := by
  induction l using re_sub2.induct with
  | case1 => rfl
  | case2 c => rfl
  | case3 c u rest hcond =>
    exfalso
    have hu : isUpperChar u = false := h u (by simp)
    simp [hu] at hcond
  | case4 c u rest hcond ih =>
    rw [re_sub2]
    simp only [hcond, Bool.false_eq_true, not_false_iff, ite_false]
    congr 1
    exact ih (by intro x hx; exact h x (List.mem_cons_of_mem c hx))

theorem lowerChar_no_upper_fixed (c : Char) (h : isUpperChar c = false) :
    lowerChar c = c := by
  unfold lowerChar
  rw [if_neg]
  intro hc
  simp [isUpperChar] at h
  omega

/-- C8: the naming normalizer convert_camel_case_to_lower_case_underscore
is idempotent on every string, maps CameraInfo to camera_info and
IMUData2 to imu_data2, and, being a total Lean function of its argument,
is pure, deterministic and never raises. -/
theorem claim_C8_normalizer_idempotent :
    (∀ s : String, convert_camel_case_to_lower_case_underscore
        (convert_camel_case_to_lower_case_underscore s)
      = convert_camel_case_to_lower_case_underscore s)
    ∧ convert_camel_case_to_lower_case_underscore "CameraInfo" = "camera_info"
    ∧ convert_camel_case_to_lower_case_underscore "IMUData2" = "imu_data2" := by
  refine ⟨fun s => ?_, ?_, ?_⟩
  · have hnoup : ∀ c ∈ (re_sub2 (re_sub1 s.data)).map lowerChar, isUpperChar c = false := by
      intro c hc
      rcases List.mem_map.mp hc with ⟨a, _, rfl⟩
      exact isUpperChar_lowerChar a
    unfold convert_camel_case_to_lower_case_underscore
    congr 1
    rw [show (String.mk ((re_sub2 (re_sub1 s.data)).map lowerChar)).data
        = (re_sub2 (re_sub1 s.data)).map lowerChar from rfl]
    rw [re_sub1_no_upper _ hnoup, re_sub2_no_upper _ hnoup]
    conv_lhs => rw [show List.map lowerChar (List.map lowerChar (re_sub2 (re_sub1 s.data)))
        = List.map (lowerChar ∘ lowerChar) (re_sub2 (re_sub1 s.data)) from List.map_map ..]
    apply List.map_congr_left
    intro c hc
    show lowerChar (lowerChar c) = lowerChar c
    exact lowerChar_no_upper_fixed _ (isUpperChar_lowerChar c)
  · simp [convert_camel_case_to_lower_case_underscore, re_sub1, re_sub2,
      isUpperChar, isLowerChar, isDigitChar, lowerChar]
  · simp [convert_camel_case_to_lower_case_underscore, re_sub1, re_sub2,
      isUpperChar, isLowerChar, isDigitChar, lowerChar]

/-! ## Lemmas about the filesystem model -/

theorem lookupFile_filter_ne (l : List (String × FSFile)) (p q : String) :
    lookupFile (l.filter (fun e => e.1 ≠ p)) q
      = if q = p then none else lookupFile l q := by
  induction l with
  | nil =>
    simp only [List.filter_nil, lookupFile]
    split <;> rfl
  | cons e rest ih =>
    rcases e with ⟨a, f⟩
    by_cases hap : a = p
    · subst hap
      rw [List.filter_cons_of_neg (by simp)]
      rw [ih]
      by_cases hq : q = a
      · subst hq
        simp
      · rw [if_neg hq, if_neg hq, lookupFile, if_neg (fun h => hq h.symm)]
    · rw [List.filter_cons_of_pos (by simp [hap])]
      by_cases haq : a = q
      · subst haq
        rw [if_neg hap]
        simp [lookupFile]
      · rw [lookupFile, if_neg haq, ih, lookupFile, if_neg haq]

theorem lookupFile_mem {l : List (String × FSFile)} {p : String} {f : FSFile}
    (h : lookupFile l p = some f) : (p, f) ∈ l := by
  induction l with
  | nil => simp [lookupFile] at h
  | cons e rest ih =>
    rcases e with ⟨a, g⟩
    simp only [lookupFile] at h
    split at h
    · rename_i hap
      subst hap
      cases h
      simp
    · exact List.mem_cons_of_mem _ (ih h)

theorem get_write_self (fs : FileSystem) (p c : String) (t : Nat) :
    (fs.write p c t).get p = some ⟨c, t⟩ := by
  simp [FileSystem.get, FileSystem.write, lookupFile]

theorem get_write_ne (fs : FileSystem) (p q c : String) (t : Nat) (h : q ≠ p) :
    (fs.write p c t).get q = fs.get q := by
  simp only [FileSystem.get, FileSystem.write, lookupFile]
  rw [if_neg (Ne.symm h), lookupFile_filter_ne, if_neg h]

theorem get_remove (fs : FileSystem) (p q : String) :
    (fs.remove p).get q = if q = p then none else fs.get q := by
  simp only [FileSystem.get, FileSystem.remove]
  exact lookupFile_filter_ne fs.files p q

theorem get_mkdirs (fs : FileSystem) (d p : String) :
    (fs.mkdirs d).get p = fs.get p := by
  unfold FileSystem.mkdirs
  split <;> rfl

theorem mkdirs_mem_dirs (fs : FileSystem) (d : String) : d ∈ (fs.mkdirs d).dirs := by
  unfold FileSystem.mkdirs
  split
  · assumption
  · exact List.mem_cons_self d fs.dirs

theorem write_dirs (fs : FileSystem) (p c : String) (t : Nat) :
    (fs.write p c t).dirs = fs.dirs := rfl

/-! ## Claim C1: the write skip decision -/

/-- The skip condition exactly as claim C1 words it: the output file
already exists, and the minimum timestamp is absent or the modification
time of the existing file is strictly newer than it, and the existing
content equals the newly rendered content byte for byte. -/
def skip_conditions (fs : FileSystem) (output_file content : String)
    (minimum_timestamp : Option Nat) : Bool :=
  match fs.get output_file with
  | none => false
  | some f =>
    (match minimum_timestamp with
     | none => true
     | some m => decide (f.mtime > m)) && (f.content == content)

theorem write_output_skip (fs : FileSystem) (out c : String) (m : Option Nat) (now : Nat)
    (h : skip_conditions fs out c m = true) :
    write_output fs out c m now = fs := by
  unfold skip_conditions at h
  unfold write_output
  cases hg : fs.get out with
  | none => rw [hg] at h; exact absurd h (by simp)
  | some f =>
    rw [hg] at h
    simp only []
    rw [if_pos h]

theorem write_output_not_skip (fs : FileSystem) (out c : String) (m : Option Nat) (now : Nat)
    (h : skip_conditions fs out c m = false) :
    (write_output fs out c m now).get out = some ⟨c, now⟩
    ∧ (∀ q, q ≠ out → (write_output fs out c m now).get q = fs.get q)
    ∧ (fs.get out = none → dirnameOf out ∈ (write_output fs out c m now).dirs) := by
  unfold skip_conditions at h
  unfold write_output
  cases hg : fs.get out with
  | none =>
    refine ⟨get_write_self .., fun q hq => ?_, fun _ => ?_⟩
    · rw [get_write_ne _ _ _ _ _ hq, get_mkdirs]
    · rw [write_dirs]
      exact mkdirs_mem_dirs fs (dirnameOf out)
  | some f =>
    rw [hg] at h
    simp only [] at h
    simp only []
    rw [if_neg (by simp [h])]
    refine ⟨get_write_self .., fun q hq => get_write_ne _ _ _ _ _ hq, fun hnone => ?_⟩
    exact absurd hnone (by simp)

theorem write_output_ne_of_not_skip (fs : FileSystem) (out c : String) (m : Option Nat)
    (now : Nat) (h : skip_conditions fs out c m = false)
    (hfresh : ∀ e ∈ fs.files, e.2.mtime < now) :
    write_output fs out c m now ≠ fs := by
  intro he
  have hout := (write_output_not_skip fs out c m now h).1
  rw [he] at hout
  have hmem := lookupFile_mem hout
  have hlt := hfresh (out, ⟨c, now⟩) hmem
  simp at hlt

theorem expand_template_ok_state (st : GlobalState) (template_name output_file : String)
    (minimum_timestamp : Option Nat) (template_basepath : Option String)
    (post : Option (String → String)) (r : String) (now : Nat) (tp : String)
    (htp : get_template_path st.fs
        (push_template_basepath st.template_prefix_path
          (match template_basepath with
           | none => dirnameOf template_name
           | some b => b))
        (match template_basepath with
         | none => basenameOf template_name
         | some _ => template_name) = .ok tp) :
    expand_template st template_name output_file minimum_timestamp template_basepath
        post (.ok r) now
      = { state := { fs := write_output st.fs output_file (applyPost post r)
                       minimum_timestamp now,
                     template_prefix_path := st.template_prefix_path },
          log := [], err := none } := by
  unfold expand_template
  simp only []
  rw [htp]
  simp only [push_template_basepath, List.dropLast_concat]

/-- C1: for a call to expand_template whose template resolves and whose
render succeeds, with a clock strictly ahead of every recorded
modification time, the filesystem is left untouched exactly when the
output file exists, the minimum timestamp is absent or the existing
modification time is strictly newer, and the existing content equals the
rendered and post processed content; in every other case that content is
written at the output path with the new timestamp, other files are
untouched, and when the output file did not exist its parent directory
is created (an existing directory being tolerated by the model of
os.makedirs). -/
theorem claim_C1_write_skip (st : GlobalState) (template_name output_file : String)
    (minimum_timestamp : Option Nat) (template_basepath : Option String)
    (post : Option (String → String)) (r : String) (now : Nat) (tp : String)
    (htp : get_template_path st.fs
        (push_template_basepath st.template_prefix_path
          (match template_basepath with
           | none => dirnameOf template_name
           | some b => b))
        (match template_basepath with
         | none => basenameOf template_name
         | some _ => template_name) = .ok tp)
    (hfresh : ∀ e ∈ st.fs.files, e.2.mtime < now) :
    ((expand_template st template_name output_file minimum_timestamp template_basepath
          post (.ok r) now).state.fs = st.fs
      ↔ skip_conditions st.fs output_file (applyPost post r) minimum_timestamp = true)
    ∧ (skip_conditions st.fs output_file (applyPost post r) minimum_timestamp = false →
        (expand_template st template_name output_file minimum_timestamp template_basepath
            post (.ok r) now).state.fs.get output_file
          = some ⟨applyPost post r, now⟩
        ∧ (∀ q, q ≠ output_file →
            (expand_template st template_name output_file minimum_timestamp
                template_basepath post (.ok r) now).state.fs.get q = st.fs.get q)
        ∧ (st.fs.get output_file = none →
            dirnameOf output_file ∈ (expand_template st template_name output_file
              minimum_timestamp template_basepath post (.ok r) now).state.fs.dirs)) := by
  rw [expand_template_ok_state st template_name output_file minimum_timestamp
    template_basepath post r now tp htp]
  constructor
  · constructor
    · intro he
      by_contra hns
      have hns2 : skip_conditions st.fs output_file (applyPost post r) minimum_timestamp
          = false := by
        cases hsk : skip_conditions st.fs output_file (applyPost post r) minimum_timestamp
        · rfl
        · exact absurd hsk hns
      exact write_output_ne_of_not_skip st.fs output_file (applyPost post r)
        minimum_timestamp now hns2 hfresh he
    · intro hs
      exact write_output_skip st.fs output_file (applyPost post r) minimum_timestamp now hs
  · intro hns
    exact write_output_not_skip st.fs output_file (applyPost post r) minimum_timestamp now hns

/-- Witness for C1 at a concrete skip instance and a concrete write
instance. -/
theorem claim_C1_write_skip_witness :
    (get_template_path
        (⟨[("base/t.em", ⟨"tmpl", 1⟩), ("o", ⟨"X", 5⟩)], []⟩ : FileSystem)
        (push_template_basepath [] "base") "t.em" = .ok "base/t.em")
    ∧ (∀ e ∈ (⟨[("base/t.em", ⟨"tmpl", 1⟩), ("o", ⟨"X", 5⟩)], []⟩ : FileSystem).files,
        e.2.mtime < 10)
    ∧ (expand_template ⟨⟨[("base/t.em", ⟨"tmpl", 1⟩), ("o", ⟨"X", 5⟩)], []⟩, []⟩
          "t.em" "o" (some 3) (some "base") none (.ok "X") 10).state.fs
        = (⟨[("base/t.em", ⟨"tmpl", 1⟩), ("o", ⟨"X", 5⟩)], []⟩ : FileSystem)
    ∧ (expand_template ⟨⟨[("base/t.em", ⟨"tmpl", 1⟩), ("o", ⟨"X", 5⟩)], []⟩, []⟩
          "t.em" "o2" (some 3) (some "base") none (.ok "Y") 10).state.fs.get "o2"
        = some ⟨"Y", 10⟩ := by
  refine ⟨rfl, by decide, ?_, ?_⟩
  · exact (claim_C1_write_skip ⟨⟨[("base/t.em", ⟨"tmpl", 1⟩), ("o", ⟨"X", 5⟩)], []⟩, []⟩
      "t.em" "o" (some 3) (some "base") none "X" 10 "base/t.em" rfl
      (by decide)).1.mpr rfl
  · exact ((claim_C1_write_skip ⟨⟨[("base/t.em", ⟨"tmpl", 1⟩), ("o", ⟨"X", 5⟩)], []⟩, []⟩
      "t.em" "o2" (some 3) (some "base") none "Y" 10 "base/t.em" rfl
      (by decide)).2 rfl).1

/-! ## Claim C2: template resolution order -/

/-- Resolution as claim C2 words it: probing the most recently pushed
directory first and falling back to earlier pushed ones.  Since the push
of source line 173 appends at the end of the list, this means probing
the list from its last element backwards. -/
def get_template_path_spec (fs : FileSystem) (stack : List String)
    (name : String) : Except String String :=
  get_template_path fs stack.reverse name

/-- Counterexample to C2 as stated: with two pushed directories both
containing the requested name, the code resolves to the earliest pushed
directory, while most recently pushed first resolution would pick the
other one. -/
theorem claim_C2_counterexample :
    get_template_path
        (⟨[("d1/t", ⟨"a", 0⟩), ("d2/t", ⟨"b", 0⟩)], []⟩ : FileSystem)
        (push_template_basepath (push_template_basepath [] "d1") "d2") "t"
      = .ok "d1/t"
    ∧ get_template_path_spec
        (⟨[("d1/t", ⟨"a", 0⟩), ("d2/t", ⟨"b", 0⟩)], []⟩ : FileSystem)
        (push_template_basepath (push_template_basepath [] "d1") "d2") "t"
      = .ok "d2/t"
    ∧ ("d1/t" : String) ≠ "d2/t" :=
  ⟨rfl, rfl, by decide⟩

/-- C2 amended: resolution probes the search path in the order entries
were pushed, earliest pushed first (the for loop of source lines 150-153
iterates the list from index zero while pushes append at the end), and
the not found error is raised exactly when no directory on the path
contains the requested name. -/
theorem claim_C2_resolution_order (fs : FileSystem) (stack : List String) (name : String) :
    (get_template_path fs stack name = .error ("Failed to find template " ++ name)
      ↔ ∀ b ∈ stack, fs.existsFile (pathJoin b name) = false)
    ∧ (∀ p, get_template_path fs stack name = .ok p →
        ∃ i, ∃ h : i < stack.length,
          p = pathJoin (stack.get ⟨i, h⟩) name
          ∧ fs.existsFile (pathJoin (stack.get ⟨i, h⟩) name) = true
          ∧ ∀ j, ∀ hj : j < stack.length, j < i →
              fs.existsFile (pathJoin (stack.get ⟨j, hj⟩) name) = false) := by
  induction stack with
  | nil =>
    constructor
    · constructor
      · intro _ b hb
        cases hb
      · intro _
        rfl
    · intro p hp
      cases hp
  | cons b rest ih =>
    by_cases hb : fs.existsFile (pathJoin b name) = true
    · constructor
      · rw [get_template_path, if_pos hb]
        constructor
        · intro he
          cases he
        · intro hall
          exact absurd hb (by simp [hall b (List.mem_cons_self b rest)])
      · intro p hp
        rw [get_template_path, if_pos hb] at hp
        injection hp with hp
        refine ⟨0, by simp, by simp [hp.symm], by simpa using hb, ?_⟩
        intro j hj hj0
        omega
    · have hbf : fs.existsFile (pathJoin b name) = false := by
        cases hx : fs.existsFile (pathJoin b name)
        · rfl
        · exact absurd hx hb
      constructor
      · rw [get_template_path, if_neg hb]
        rw [ih.1]
        constructor
        · intro hrest x hx
          rcases List.mem_cons.mp hx with hxb | hxr
          · rw [hxb]
            exact hbf
          · exact hrest x hxr
        · intro hall x hx
          exact hall x (List.mem_cons_of_mem b hx)
      · intro p hp
        rw [get_template_path, if_neg hb] at hp
        rcases ih.2 p hp with ⟨i, hi, hpi, hei, hbefore⟩
        refine ⟨i + 1, by simpa using Nat.succ_lt_succ hi, ?_, ?_, ?_⟩
        · simpa using hpi
        · simpa using hei
        · intro j hj hji
          cases j with
          | zero => simpa using hbf
          | succ k =>
            have hk : k < rest.length := by simpa using hj
            have := hbefore k hk (by omega)
            simpa using this

/-- Witness for the amended C2: at a concrete search path whose second
pushed directory alone contains the template, resolution yields index
one. -/
theorem claim_C2_witness :
    ∃ i, ∃ h : i < (["d1", "d2"] : List String).length,
      "d2/t" = pathJoin ((["d1", "d2"] : List String).get ⟨i, h⟩) "t"
      ∧ (⟨[("d2/t", ⟨"b", 0⟩)], []⟩ : FileSystem).existsFile
          (pathJoin ((["d1", "d2"] : List String).get ⟨i, h⟩) "t") = true
      ∧ ∀ j, ∀ hj : j < (["d1", "d2"] : List String).length, j < i →
          (⟨[("d2/t", ⟨"b", 0⟩)], []⟩ : FileSystem).existsFile
            (pathJoin ((["d1", "d2"] : List String).get ⟨j, hj⟩) "t") = false :=
  (claim_C2_resolution_order ⟨[("d2/t", ⟨"b", 0⟩)], []⟩ ["d1", "d2"] "t").2 "d2/t" rfl

/-! ## Claim C3: the push is not popped when template lookup fails -/

/-- C3 evidence: a call to expand_template whose template name exists in
no directory of the search path raises the lookup error, and afterwards
the pushed base directory is still on the search path list: the
RuntimeError of source line 154 is raised at line 174, before the
try block at line 201 whose finally branch at lines 217-218 performs the
pop, so no pop happens on that exit path and the stack is not restored
to its pre call state. -/
theorem claim_C3_stack_leak :
    (expand_template ⟨⟨[], []⟩, []⟩ "missing.em" "out" none (some "base") none
        (.ok "x") 0).err = some (.templateNotFound "missing.em")
    ∧ (expand_template ⟨⟨[], []⟩, []⟩ "missing.em" "out" none (some "base") none
        (.ok "x") 0).state.template_prefix_path = ["base"]
    ∧ (["base"] : List String) ≠ ([] : List String) :=
  ⟨rfl, rfl, by decide⟩

/-! ## Claim C4: the nested inclusion callable -/

/-- Counterexample to C4 as stated: during a nested inclusion the render
observes the search path exactly as it stood at the call, with nothing
pushed: a render that echoes the observed search path writes the
unextended path into the sink, whereas a push of the directory of the
resolved template before rendering would have produced the extended
one. -/
theorem claim_C4_counterexample :
    (nested_expand_template
        ⟨⟨[("base/inc.em", ⟨"tmpl", 0⟩)], []⟩, ["base"], ""⟩ "inc.em"
        (fun stk => .ok (String.intercalate "," stk))).state.sink = "base"
    ∧ (fun stk => (.ok (String.intercalate "," stk) : Except String String))
        ["base", "base"] = .ok "base,base"
    ∧ ("base" : String) ≠ "base,base" :=
  ⟨rfl, rfl, by decide⟩

/-- C4 amended: the nested inclusion callable resolves the named
template against the search path as it currently stands, neither pushes
onto nor pops from the search path (and touches no file), and on a
successful render appends the rendered text to the same output sink
before returning; the lookup failure of get_template_path is raised when
no directory on the path contains the name. -/
theorem claim_C4_nested_include (st : IncludeState) (name : String)
    (render : List String → Except String String) :
    (nested_expand_template st name render).state.template_prefix_path
        = st.template_prefix_path
    ∧ (nested_expand_template st name render).state.fs = st.fs
    ∧ (∀ tp, get_template_path st.fs st.template_prefix_path name = .ok tp →
        ∀ s, render st.template_prefix_path = .ok s →
          (nested_expand_template st name render).state.sink = st.sink ++ s
          ∧ (nested_expand_template st name render).err = none)
    ∧ (get_template_path st.fs st.template_prefix_path name
          = .error ("Failed to find template " ++ name) →
        (nested_expand_template st name render).err
          = some (.templateNotFound name)) := by
  unfold nested_expand_template
  cases hl : get_template_path st.fs st.template_prefix_path name with
  | error m =>
    refine ⟨rfl, rfl, ?_, ?_⟩
    · intro tp htp
      cases htp
    · intro _
      rfl
  | ok tp =>
    cases hr : render st.template_prefix_path with
    | error m =>
      refine ⟨rfl, rfl, ?_, ?_⟩
      · intro tp2 htp2 s hs
        simp at hs
      · intro he
        simp at he
    | ok s =>
      refine ⟨rfl, rfl, ?_, ?_⟩
      · intro tp2 htp2 s2 hs2
        injection hs2 with hs2
        subst hs2
        exact ⟨rfl, rfl⟩
      · intro he
        simp at he

/-- Witness for the amended C4 at a concrete nested inclusion. -/
theorem claim_C4_witness :
    (nested_expand_template ⟨⟨[("base/inc.em", ⟨"tmpl", 0⟩)], []⟩, ["base"], "pre"⟩
        "inc.em" (fun _ => .ok "XYZ")).state.sink = "pre" ++ "XYZ"
    ∧ (nested_expand_template ⟨⟨[("base/inc.em", ⟨"tmpl", 0⟩)], []⟩, ["base"], "pre"⟩
        "inc.em" (fun _ => .ok "XYZ")).err = none :=
  (claim_C4_nested_include ⟨⟨[("base/inc.em", ⟨"tmpl", 0⟩)], []⟩, ["base"], "pre"⟩
    "inc.em" (fun _ => .ok "XYZ")).2.2.1 "base/inc.em" rfl "XYZ" rfl

/-! ## Claim C5: cleanup on rendering failure -/

/-- C5: when the engine raises during rendering (the render outcome
models a failure at any nesting depth, since an error inside a nested
inclusion is re-raised at source line 268 and propagates to the except
branch of lines 211-216), any file at the output path is removed, a
diagnostic naming the template and the destination is printed, and the
error is re-raised; no file remains at the output path afterwards. -/
theorem claim_C5_failure_cleanup (st : GlobalState) (template_name output_file : String)
    (minimum_timestamp : Option Nat) (template_basepath : Option String)
    (post : Option (String → String)) (msg : String) (now : Nat) (tp : String)
    (htp : get_template_path st.fs
        (push_template_basepath st.template_prefix_path
          (match template_basepath with
           | none => dirnameOf template_name
           | some b => b))
        (match template_basepath with
         | none => basenameOf template_name
         | some _ => template_name) = .ok tp) :
    (expand_template st template_name output_file minimum_timestamp template_basepath
        post (.error msg) now).state.fs.get output_file = none
    ∧ (expand_template st template_name output_file minimum_timestamp template_basepath
        post (.error msg) now).log
      = [.expandErrorLog
          (match template_basepath with
           | none => basenameOf template_name
           | some _ => template_name) output_file msg]
    ∧ (expand_template st template_name output_file minimum_timestamp template_basepath
        post (.error msg) now).err = some (.renderError msg)
    ∧ (expand_template st template_name output_file minimum_timestamp template_basepath
        post (.error msg) now).state.template_prefix_path = st.template_prefix_path := by
  cases template_basepath with
  | none =>
    simp only [] at htp
    unfold expand_template
    simp only []
    rw [htp]
    simp [push_template_basepath, List.dropLast_concat, get_remove]
  | some b =>
    simp only [] at htp
    unfold expand_template
    simp only []
    rw [htp]
    simp [push_template_basepath, List.dropLast_concat, get_remove]

/-- Witness for C5: a concrete failing render over a pre existing stale
output file removes it. -/
theorem claim_C5_witness :
    (expand_template ⟨⟨[("base/t.em", ⟨"tmpl", 1⟩), ("o", ⟨"stale", 5⟩)], []⟩, []⟩
        "t.em" "o" none (some "base") none (.error "boom") 10).state.fs.get "o" = none
    ∧ (expand_template ⟨⟨[("base/t.em", ⟨"tmpl", 1⟩), ("o", ⟨"stale", 5⟩)], []⟩, []⟩
        "t.em" "o" none (some "base") none (.error "boom") 10).log
      = [.expandErrorLog "t.em" "o" "boom"]
    ∧ (expand_template ⟨⟨[("base/t.em", ⟨"tmpl", 1⟩), ("o", ⟨"stale", 5⟩)], []⟩, []⟩
        "t.em" "o" none (some "base") none (.error "boom") 10).err
      = some (.renderError "boom")
    ∧ (expand_template ⟨⟨[("base/t.em", ⟨"tmpl", 1⟩), ("o", ⟨"stale", 5⟩)], []⟩, []⟩
        "t.em" "o" none (some "base") none (.error "boom") 10).state.template_prefix_path
      = ([] : List String) :=
  claim_C5_failure_cleanup ⟨⟨[("base/t.em", ⟨"tmpl", 1⟩), ("o", ⟨"stale", 5⟩)], []⟩, []⟩
    "t.em" "o" none (some "base") none "boom" 10 "base/t.em" rfl


/-! ## Claim C7: the staleness oracle -/

/-- The modification times of the dependencies that exist, in list
order. -/
def mtimesOf (fs : FileSystem) (deps : List String) : List Nat :=
  deps.filterMap (fun d => (fs.get d).map (fun f => f.mtime))

/-- The accumulator update iterated over a list of timestamps. -/
def maxAcc : Option Nat → List Nat → Option Nat
  | acc, [] => acc
  | acc, t :: ts => maxAcc (stepAcc acc t) ts

theorem stepAcc_spec (acc : Option Nat) (t : Nat) :
    ∃ b, stepAcc acc t = some b ∧ t ≤ b ∧ (∀ a, acc = some a → a ≤ b)
      ∧ (b = t ∨ acc = some b) := by
  cases acc with
  | none =>
    refine ⟨t, rfl, Nat.le_refl t, ?_, Or.inl rfl⟩
    intro a h
    cases h
  | some a =>
    by_cases h : t > a
    · refine ⟨t, ?_, Nat.le_refl t, ?_, Or.inl rfl⟩
      · simp [stepAcc, if_pos h]
      · intro x hx
        injection hx with hx
        omega
    · refine ⟨a, ?_, by omega, ?_, Or.inr rfl⟩
      · simp [stepAcc, if_neg h]
      · intro x hx
        injection hx with hx
        omega

theorem maxAcc_spec : ∀ (ts : List Nat) (acc : Option Nat) (m : Nat),
    maxAcc acc ts = some m →
    (∀ t ∈ ts, t ≤ m) ∧ (m ∈ ts ∨ acc = some m) ∧ (∀ a, acc = some a → a ≤ m)
  | [], acc, m, h => by
    rw [maxAcc] at h
    refine ⟨by simp, Or.inr h, ?_⟩
    intro a ha
    rw [ha] at h
    injection h with h
    omega
  | t :: ts, acc, m, h => by
    rw [maxAcc] at h
    rcases stepAcc_spec acc t with ⟨b, hb, htb, hab, hbor⟩
    rw [hb] at h
    rcases maxAcc_spec ts (some b) m h with ⟨hle, hmem, hacc⟩
    have hbm : b ≤ m := hacc b rfl
    refine ⟨?_, ?_, ?_⟩
    · intro x hx
      rcases List.mem_cons.mp hx with rfl | hxs
      · omega
      · exact hle x hxs
    · rcases hmem with hm | hsome
      · exact Or.inl (List.mem_cons_of_mem t hm)
      · injection hsome with he
        subst he
        rcases hbor with rfl | haccb
        · exact Or.inl (List.mem_cons_self ..)
        · exact Or.inr haccb
    · intro a ha
      have := hab a ha
      omega

theorem maxAcc_some_of_some : ∀ (ts : List Nat) (a : Nat),
    ∃ m, maxAcc (some a) ts = some m
  | [], a => ⟨a, rfl⟩
  | t :: ts, a => by
    rw [maxAcc]
    rcases stepAcc_spec (some a) t with ⟨b, hb, _, _, _⟩
    rw [hb]
    exact maxAcc_some_of_some ts b

theorem maxAcc_some_of_ne_nil (ts : List Nat) (h : ts ≠ []) :
    ∃ m, maxAcc none ts = some m := by
  cases ts with
  | nil => exact absurd rfl h
  | cons t ts =>
    rw [maxAcc]
    rw [show stepAcc none t = some t from rfl]
    exact maxAcc_some_of_some ts t

theorem mem_mtimesOf {fs : FileSystem} {deps : List String} {d : String} {fl : FSFile}
    (hd : d ∈ deps) (hg : fs.get d = some fl) : fl.mtime ∈ mtimesOf fs deps := by
  unfold mtimesOf
  rw [List.mem_filterMap]
  refine ⟨d, hd, ?_⟩
  rw [hg]
  rfl

theorem mtimesOf_mem {fs : FileSystem} {deps : List String} {m : Nat}
    (h : m ∈ mtimesOf fs deps) :
    ∃ d fl, d ∈ deps ∧ fs.get d = some fl ∧ fl.mtime = m := by
  unfold mtimesOf at h
  rw [List.mem_filterMap] at h
  rcases h with ⟨d, hd, hm⟩
  cases hg : fs.get d with
  | none => rw [hg] at hm; cases hm
  | some fl =>
    rw [hg] at hm
    injection hm with hm
    exact ⟨d, fl, hd, hg, hm⟩

theorem newest_loop_ok (fs : FileSystem) : ∀ (deps : List String) (acc : Option Nat),
    (∀ d ∈ deps, (fs.get d).isSome = true) →
    newest_loop fs deps acc = .ok (maxAcc acc (mtimesOf fs deps))
  | [], _, _ => rfl
  | d :: ds, acc, h => by
    cases hg : fs.get d with
    | none =>
      have := h d (List.mem_cons_self ..)
      rw [hg] at this
      cases this
    | some f =>
      rw [newest_loop, hg]
      simp only []
      have hmt : mtimesOf fs (d :: ds) = f.mtime :: mtimesOf fs ds := by
        rw [mtimesOf, List.filterMap_cons, hg]
        rfl
      rw [hmt, maxAcc]
      exact newest_loop_ok fs ds (stepAcc acc f.mtime)
        (fun x hx => h x (List.mem_cons_of_mem d hx))

theorem newest_loop_missing (fs : FileSystem) : ∀ (deps : List String) (acc : Option Nat),
    (∃ d ∈ deps, fs.get d = none) →
    ∃ d, d ∈ deps ∧ newest_loop fs deps acc = .error (.osError d) ∧ fs.get d = none
  | [], _, h => by
    rcases h with ⟨d, hd, _⟩
    cases hd
  | d :: ds, acc, h => by
    cases hg : fs.get d with
    | none =>
      refine ⟨d, List.mem_cons_self .., ?_, hg⟩
      rw [newest_loop, hg]
    | some f =>
      rcases h with ⟨x, hx, hxn⟩
      rcases List.mem_cons.mp hx with rfl | hxs
      · rw [hg] at hxn
        cases hxn
      · rcases newest_loop_missing fs ds (stepAcc acc f.mtime) ⟨x, hxs, hxn⟩
          with ⟨y, hy, hle, hyn⟩
        exact ⟨y, List.mem_cons_of_mem d hy, by rw [newest_loop, hg]; exact hle, hyn⟩

/-- C7: the staleness oracle returns None for the empty dependency list;
for a singleton of an existing file its modification time; for a non
empty list of existing files the maximum of their modification times;
and when some listed dependency does not exist it raises the OSError of
os.path.getmtime for such a dependency instead of skipping it. -/
theorem claim_C7_staleness (fs : FileSystem) (deps : List String) :
    (get_newest_modification_time fs [] = .ok none)
    ∧ (∀ f fl, fs.get f = some fl →
        get_newest_modification_time fs [f] = .ok (some fl.mtime))
    ∧ ((∀ d ∈ deps, (fs.get d).isSome = true) → deps ≠ [] →
        ∃ m, get_newest_modification_time fs deps = .ok (some m)
          ∧ (∀ d fl, d ∈ deps → fs.get d = some fl → fl.mtime ≤ m)
          ∧ (∃ d fl, d ∈ deps ∧ fs.get d = some fl ∧ fl.mtime = m))
    ∧ ((∃ d ∈ deps, fs.get d = none) →
        ∃ d, d ∈ deps ∧ get_newest_modification_time fs deps = .error (.osError d)
          ∧ fs.get d = none) := by
  refine ⟨rfl, ?_, ?_, ?_⟩
  · intro f fl hg
    unfold get_newest_modification_time
    rw [newest_loop, hg]
    rfl
  · intro hall hne
    have hloop := newest_loop_ok fs deps none hall
    have hnonempty : mtimesOf fs deps ≠ [] := by
      cases deps with
      | nil => exact absurd rfl hne
      | cons d ds =>
        have hd := hall d (List.mem_cons_self ..)
        cases hg : fs.get d with
        | none =>
          rw [hg] at hd
          cases hd
        | some fl =>
          intro hemp
          have hmm := mem_mtimesOf (List.mem_cons_self d ds) hg
          rw [hemp] at hmm
          cases hmm
    rcases maxAcc_some_of_ne_nil _ hnonempty with ⟨m, hm⟩
    refine ⟨m, ?_, ?_, ?_⟩
    · unfold get_newest_modification_time
      rw [hloop, hm]
    · intro d fl hd hg
      exact (maxAcc_spec _ _ _ hm).1 _ (mem_mtimesOf hd hg)
    · rcases (maxAcc_spec _ _ _ hm).2.1 with hmem | habs
      · exact mtimesOf_mem hmem
      · cases habs
  · intro hmiss
    exact newest_loop_missing fs deps none hmiss

/-- Witness for C7: empty list, singleton, a two element maximum, and a
missing dependency. -/
theorem claim_C7_witness :
    get_newest_modification_time
        (⟨[("a", ⟨"x", 3⟩), ("b", ⟨"y", 9⟩)], []⟩ : FileSystem) [] = .ok none
    ∧ get_newest_modification_time
        (⟨[("a", ⟨"x", 3⟩), ("b", ⟨"y", 9⟩)], []⟩ : FileSystem) ["a"] = .ok (some 3)
    ∧ (∃ m, get_newest_modification_time
          (⟨[("a", ⟨"x", 3⟩), ("b", ⟨"y", 9⟩)], []⟩ : FileSystem) ["a", "b"]
        = .ok (some m)
        ∧ (∀ d fl, d ∈ (["a", "b"] : List String) →
            (⟨[("a", ⟨"x", 3⟩), ("b", ⟨"y", 9⟩)], []⟩ : FileSystem).get d = some fl →
            fl.mtime ≤ m)
        ∧ (∃ d fl, d ∈ (["a", "b"] : List String)
            ∧ (⟨[("a", ⟨"x", 3⟩), ("b", ⟨"y", 9⟩)], []⟩ : FileSystem).get d = some fl
            ∧ fl.mtime = m))
    ∧ (∃ d, d ∈ (["a", "c"] : List String)
        ∧ get_newest_modification_time (⟨[("a", ⟨"x", 3⟩)], []⟩ : FileSystem) ["a", "c"]
          = .error (.osError d)
        ∧ (⟨[("a", ⟨"x", 3⟩)], []⟩ : FileSystem).get d = none) := by
  refine ⟨(claim_C7_staleness ⟨[("a", ⟨"x", 3⟩), ("b", ⟨"y", 9⟩)], []⟩ []).1,
    (claim_C7_staleness ⟨[("a", ⟨"x", 3⟩), ("b", ⟨"y", 9⟩)], []⟩ []).2.1 "a" ⟨"x", 3⟩ rfl,
    (claim_C7_staleness ⟨[("a", ⟨"x", 3⟩), ("b", ⟨"y", 9⟩)], []⟩ ["a", "b"]).2.2.1
      (by decide) (by decide),
    (claim_C7_staleness (⟨[("a", ⟨"x", 3⟩)], []⟩ : FileSystem) ["a", "c"]).2.2.2
      ⟨"c", by decide, rfl⟩⟩

/-! ## Claim C10: the caller context is never mutated -/

theorem alookup_filter_ne {κ β : Type} [DecidableEq κ] (l : List (κ × β)) (p q : κ) :
    alookup (l.filter (fun e => e.1 ≠ p)) q = if q = p then none else alookup l q := by
  induction l with
  | nil =>
    simp only [List.filter_nil, alookup]
    split <;> rfl
  | cons e rest ih =>
    rcases e with ⟨a, f⟩
    by_cases hap : a = p
    · subst hap
      rw [List.filter_cons_of_neg (by simp)]
      rw [ih]
      by_cases hq : q = a
      · subst hq
        simp
      · rw [if_neg hq, if_neg hq, alookup, if_neg (fun h => hq h.symm)]
    · rw [List.filter_cons_of_pos (by simp [hap])]
      by_cases haq : a = q
      · subst haq
        rw [if_neg hap]
        simp [alookup]
      · rw [alookup, if_neg haq, ih, alookup, if_neg haq]

/-- C10: the lines data = dict(data) and _add_helper_functions(data)
clone the caller mapping and inject the TEMPLATE entry only into the
clone: afterwards the caller dictionary holds exactly its previous
bindings, the clone holds the TEMPLATE callable plus, at every other
key, exactly the caller bindings, and every other dictionary of the heap
is untouched. -/
theorem claim_C10_context_clone (h : DictHeap) (caller fresh : Nat)
    (content : List (String × PyValue))
    (hc : alookup h.dicts caller = some content)
    (hfresh : alookup h.dicts fresh = none) :
    alookup (prepare_render_context h caller fresh).dicts caller = some content
    ∧ alookup (prepare_render_context h caller fresh).dicts fresh
        = some (add_helper_functions content)
    ∧ alookup (add_helper_functions content) "TEMPLATE" = some .templateCallable
    ∧ (∀ k, k ≠ "TEMPLATE" →
        alookup (add_helper_functions content) k = alookup content k)
    ∧ (∀ i, i ≠ fresh →
        alookup (prepare_render_context h caller fresh).dicts i = alookup h.dicts i) := by
  have hne : fresh ≠ caller := by
    intro he
    rw [he, hc] at hfresh
    cases hfresh
  unfold prepare_render_context
  rw [hc]
  simp only []
  refine ⟨?_, ?_, rfl, ?_, ?_⟩
  · rw [alookup, if_neg hne]
    exact hc
  · rw [alookup, if_pos rfl]
  · intro k hk
    unfold add_helper_functions dictSet
    rw [alookup, if_neg (fun he => hk he.symm)]
    rw [alookup_filter_ne, if_neg hk]
  · intro i hi
    rw [alookup, if_neg (fun he => hi he.symm)]

/-- Witness for C10 at a concrete heap of one dictionary. -/
theorem claim_C10_witness :
    alookup (prepare_render_context ⟨[(0, [("k", .strV "v")])]⟩ 0 1).dicts 0
        = some [("k", .strV "v")]
    ∧ alookup (prepare_render_context ⟨[(0, [("k", .strV "v")])]⟩ 0 1).dicts 1
        = some (add_helper_functions [("k", .strV "v")])
    ∧ alookup (add_helper_functions [("k", .strV "v")]) "TEMPLATE"
        = some .templateCallable
    ∧ (∀ k, k ≠ "TEMPLATE" →
        alookup (add_helper_functions [("k", .strV "v")]) k
          = alookup [("k", PyValue.strV "v")] k)
    ∧ (∀ i, i ≠ 1 →
        alookup (prepare_render_context ⟨[(0, [("k", .strV "v")])]⟩ 0 1).dicts i
          = alookup [(0, [("k", PyValue.strV "v")])] i) :=
  claim_C10_context_clone ⟨[(0, [("k", .strV "v")])]⟩ 0 1 [("k", .strV "v")] rfl rfl

/-! ## Claim C9: eager validation of the template mapping -/

/-- C9: when some key of the template mapping does not exist under the
template directory, generate_files fails with the assertion error naming
a missing template, before any idl tuple is processed, any side file is
read or any output is produced: the result is this error with an empty
diagnostic log, for every parser, json decoder, expander and idl tuple
list. -/
theorem claim_C9_fail_fast (fs : FileSystem) (args : GenArgs)
    (mapping : List (String × String)) (keep_case : Bool)
    (parse : String → String → Except PyExc String)
    (json_load : String → Except PyExc String)
    (expand_call : Option Nat → String → String → Option PyExc)
    (hbad : ∃ tm ∈ mapping, fs.existsFile (pathJoin args.template_dir tm.1) = false) :
    ∃ t o, (t, o) ∈ mapping ∧ fs.existsFile (pathJoin args.template_dir t) = false
      ∧ generate_files fs args mapping keep_case parse json_load expand_call
        = ([], .error (.assertionFailed ("Could not find template: " ++ t))) := by
  have hsome : (mapping.find?
      (fun tm => !(fs.existsFile (pathJoin args.template_dir tm.1)))).isSome = true := by
    rw [List.find?_isSome]
    rcases hbad with ⟨tm, htm, hex⟩
    exact ⟨tm, htm, by rw [hex]; rfl⟩
  cases hfind : mapping.find?
      (fun tm => !(fs.existsFile (pathJoin args.template_dir tm.1))) with
  | none =>
    rw [hfind] at hsome
    cases hsome
  | some tm0 =>
    have hmem := List.mem_of_find?_eq_some hfind
    have hprop := List.find?_some hfind
    refine ⟨tm0.1, tm0.2, by simpa using hmem, ?_, ?_⟩
    · rcases hex : fs.existsFile (pathJoin args.template_dir tm0.1)
      · rfl
      · rw [hex] at hprop
        cases hprop
    · unfold generate_files
      rw [hfind]

/-- Witness for C9: a mapping whose only key is absent from the
filesystem. -/
theorem claim_C9_witness :
    ∃ t o, (t, o) ∈ ([("m.em", "%s.h")] : List (String × String))
      ∧ (⟨[], []⟩ : FileSystem).existsFile (pathJoin "tpl" t) = false
      ∧ generate_files ⟨[], []⟩ ⟨"tpl", "out", "pkg", [], [], [], []⟩
          [("m.em", "%s.h")] false (fun _ _ => .ok "tree") (fun _ => .ok "info")
          (fun _ _ _ => none)
        = ([], .error (.assertionFailed ("Could not find template: " ++ t))) :=
  claim_C9_fail_fast ⟨[], []⟩ ⟨"tpl", "out", "pkg", [], [], [], []⟩
    [("m.em", "%s.h")] false (fun _ _ => .ok "tree") (fun _ => .ok "info")
    (fun _ _ _ => none) ⟨("m.em", "%s.h"), by decide, rfl⟩

/-! ## Claim C6: error logging in the orchestrator loop -/

/-- Counterexample to C6 as stated: with a non empty side file map that
lacks the entry for this idl file, the KeyError of source line 106 is
raised at a point outside the try block of lines 115-140, so it
propagates without any diagnostic naming the idl file. -/
theorem claim_C6_counterexample :
    process_idl_tuple (⟨[], []⟩ : FileSystem) "out" [("other.idl", "side.json")] []
        false [("t.em", "%s.h")] (fun _ _ => .ok "tree") (fun _ => .ok "info")
        (fun _ _ => none) "pkg:msg/Foo.idl"
      = ([], .error (.keyError "msg/Foo.idl"))
    ∧ LogEntry.idlErrorLog (pathJoin "pkg" "msg/Foo.idl") ∉ ([] : List LogEntry) :=
  ⟨rfl, by simp⟩

theorem expand_loop_log (output_dir rel idl_stem absPath : String)
    (ec : String → String → Option PyExc) :
    ∀ (ms : List (String × String)) (acc : List String) (log : List LogEntry) (r : PyExc),
      expand_loop output_dir rel idl_stem absPath ec ms acc = (log, .error r) →
      log = [.idlErrorLog absPath]
  | [], acc, log, r, h => by
    rw [expand_loop] at h
    injection h with h1 h2
    cases h2
  | (tf, gf) :: ms, acc, log, r, h => by
    rw [expand_loop] at h
    cases hec : ec tf (pathJoin output_dir
        (pathJoin (parentOf rel) (String.replace gf "%s" idl_stem))) with
    | some e =>
      rw [hec] at h
      injection h with h1 h2
      exact h1.symm
    | none =>
      rw [hec] at h
      exact expand_loop_log output_dir rel idl_stem absPath ec ms _ log r h

/-- C6 amended: an exception raised inside the try block of lines
115-140, that is while parsing the idl file or while expanding one of
its templates, is re-raised together with the diagnostic naming the idl
file by its absolute path, and an exception of the side file step of
lines 104-108, which runs before the try block, is re-raised without
that diagnostic; in every case the first failing entry aborts the run
and no further idl tuple is processed. -/
theorem claim_C6_error_logging (fs : FileSystem) (output_dir : String)
    (tdf : List (String × String)) (rif : List ((String × String) × String))
    (keep_case : Bool) (mapping : List (String × String))
    (parse : String → String → Except PyExc String)
    (json_load : String → Except PyExc String)
    (expand_call : String → String → Option PyExc)
    (idl_tuple base rel : String)
    (hsplit : rsplitColon1 idl_tuple = some (base, rel)) :
    (∀ e, side_file_step fs tdf json_load rel = .error e →
        process_idl_tuple fs output_dir tdf rif keep_case mapping parse json_load
            expand_call idl_tuple = ([], .error e))
    ∧ (∀ info e, side_file_step fs tdf json_load rel = .ok info →
        ¬ (splitOnStr rel '/').length < 2 →
        parse base rel = .error e →
        process_idl_tuple fs output_dir tdf rif keep_case mapping parse json_load
            expand_call idl_tuple
          = ([.idlErrorLog (pathJoin base rel)], .error e))
    ∧ (∀ info tree log r, side_file_step fs tdf json_load rel = .ok info →
        ¬ (splitOnStr rel '/').length < 2 →
        parse base rel = .ok tree →
        expand_loop output_dir rel
            (if keep_case then stemOf rel
             else convert_camel_case_to_lower_case_underscore (stemOf rel))
            (pathJoin base rel) expand_call mapping [] = (log, .error r) →
        process_idl_tuple fs output_dir tdf rif keep_case mapping parse json_load
            expand_call idl_tuple
          = ([.idlErrorLog (pathJoin base rel)], .error r))
    ∧ (∀ (ts : List String) (log : List LogEntry) (e : PyExc),
        process_idl_tuple fs output_dir tdf rif keep_case mapping parse json_load
            expand_call idl_tuple = (log, .error e) →
        process_idl_tuples fs output_dir tdf rif keep_case mapping parse json_load
            expand_call (idl_tuple :: ts) = (log, .error e)) := by
  refine ⟨?_, ?_, ?_, ?_⟩
  · intro e he
    unfold process_idl_tuple
    rw [hsplit]
    simp only []
    rw [he]
  · intro info e hs hp hperr
    unfold process_idl_tuple
    rw [hsplit]
    simp only []
    rw [hs]
    simp only []
    rw [if_neg hp]
    rw [hperr]
  · intro info tree log r hs hp hpok hexp
    unfold process_idl_tuple
    rw [hsplit]
    simp only []
    rw [hs]
    simp only []
    rw [if_neg hp]
    rw [hpok]
    simp only []
    rw [hexp, expand_loop_log output_dir rel _ (pathJoin base rel) expand_call
      mapping [] log r hexp]
  · intro ts log e h
    rw [process_idl_tuples, h]

/-- Witness for the amended C6: a parse failure is re-raised with the
diagnostic naming the absolute idl path. -/
theorem claim_C6_witness :
    process_idl_tuple (⟨[], []⟩ : FileSystem) "out" [] [] false [("t.em", "%s.h")]
        (fun _ _ => .error (.parseError "bad")) (fun _ => .ok "info") (fun _ _ => none)
        "pkg:msg/Foo.idl"
      = ([.idlErrorLog (pathJoin "pkg" "msg/Foo.idl")], .error (.parseError "bad")) :=
  (claim_C6_error_logging ⟨[], []⟩ "out" [] [] false [("t.em", "%s.h")]
    (fun _ _ => .error (.parseError "bad")) (fun _ => .ok "info") (fun _ _ => none)
    "pkg:msg/Foo.idl" "pkg" "msg/Foo.idl" rfl).2.1 none (.parseError "bad")
    rfl (by decide) rfl
